import Mathlib

/-!
Verification of the fee-targeting transaction-mutation scripts
(petertodd/replace-by-fee-tools) against their natural-language
specification.

The development shallowly embeds the fee-rate convergence loops of
`bump-fee.py` and `doublespend.py`, the two corrective fee passes of
`sendmany.py`, the nSequence zeroing of `sendmany.py`, and the burn
broadcast loop of `spend-brainwallets-to-fees.py`.

Modelling conventions:
* all amounts are `ℤ` satoshis, serialized sizes are `ℕ` bytes; fee
  rates are exact rationals `ℚ` (the Python source carries the rate
  arithmetic in binary64 floats; the embedding idealizes the float
  values as the exact rationals they denote);
* the external collaborators (RPC node, signer) are parameters: an
  unspent-pool candidate records, besides its amount, the growth in
  serialized size that consuming it causes after the mandatory re-sign
  (`scriptsig_size`), which the scripts obtain from the signer;
* loops are embedded as fuel-indexed recursions; running out of fuel
  exposes the state the loop has reached after that many iterations,
  so termination bounds and reachable-state invariants are theorems
  about the runner at every fuel.
-/

/-- State of the draft transaction during a convergence loop:
`change` is `change_txout.nValue`, `value_in` and `value_out` are the
running totals of the same names in the scripts, and `size` is
`len(tx.serialize())`. -/
structure TxState where
  change : ℤ
  value_in : ℤ
  value_out : ℤ
  size : ℕ
deriving DecidableEq, Repr

/-- One entry of the unspent pool (`rpc.listunspent(1)`, sorted
ascending by amount): its `amount`, and the number of bytes the
transaction grows by when the corresponding input is appended and the
transaction re-signed (the scriptSig cost of consuming it). -/
structure Candidate where
  amount : ℤ
  scriptsig_size : ℕ
deriving DecidableEq, Repr

/-- Fee rate `(value_in-value_out) / len(tx.serialize())` in satoshis
per byte, as an exact rational. -/
def fees_per_byte (st : TxState) : ℚ :=
  ((st.value_in - st.value_out : ℤ) : ℚ) / (st.size : ℚ)

/-- Fee shortfall `math.ceil(target * len(tx.serialize()) - (value_in - value_out))`
computed at the top of each loop iteration. -/
def delta_fee (target : ℚ) (st : TxState) : ℤ :=
  ⌈target * (st.size : ℚ) - ((st.value_in - st.value_out : ℤ) : ℚ)⌉

/-- Change-shrink mutation: `change_txout.nValue -= d; value_out -= d`.
The serialized size is unchanged (an output's value field has fixed
width). -/
def shrinkChange (st : TxState) (d : ℤ) : TxState :=
  { st with change := st.change - d, value_out := st.value_out - d }

/-- Input-add mutation: append an input for candidate `c`, then
`value_in += amount; change_txout.nValue += amount; value_out += amount`,
and re-sign, which grows the serialized size by the new input's cost. -/
def addInput (st : TxState) (c : Candidate) : TxState :=
  { st with
    value_in := st.value_in + c.amount
    change := st.change + c.amount
    value_out := st.value_out + c.amount
    size := st.size + c.scriptsig_size }

/-- Outcome of running a convergence loop under a fuel bound:
`success` is a normal exit from the `while`; `insufficientFunds` is
the guarded `parser.exit` of bump-fee.py when the pool is exhausted;
`indexError` is the uncaught `IndexError` that doublespend.py raises
in the same situation; `outOfFuel` returns the state and pool reached
after the given number of iterations with the loop guard still true. -/
inductive RunResult where
  | success (st : TxState) (pool : List Candidate)
  | insufficientFunds (st : TxState)
  | indexError (st : TxState)
  | outOfFuel (st : TxState) (pool : List Candidate)
deriving DecidableEq, Repr

/-- State carried by a run outcome. -/
def RunResult.state : RunResult → TxState
  | .success st _ => st
  | .insufficientFunds st => st
  | .indexError st => st
  | .outOfFuel st _ => st

/-- Whether the run exited the loop normally. -/
def RunResult.isSuccess : RunResult → Bool
  | .success _ _ => true
  | _ => false

/-- Whether the run ended in bump-fee.py's guarded pool-exhaustion
exit. -/
def RunResult.isInsufficientFunds : RunResult → Bool
  | .insufficientFunds _ => true
  | _ => false

/-- Whether the fuel bound was reached with the loop guard still
true. -/
def RunResult.isOutOfFuel : RunResult → Bool
  | .outOfFuel _ _ => true
  | _ => false

/-- Convergence loop of bump-fee.py (lines 108-156), run for at most
`fuel` iterations.  Per iteration: if the fee rate already meets the
target the loop exits; otherwise compute `delta_fee`, break if it is
below 1, shrink the change output when that leaves it above the dust
threshold, and otherwise pop the largest pool candidate (the last of
the ascending-sorted list) and add it as an input — exiting with
`insufficientFunds` when the pool is empty. -/
def bumpRun (target : ℚ) (dust : ℤ) : ℕ → TxState → List Candidate → RunResult
  | 0, st, pool =>
      if fees_per_byte st < target then RunResult.outOfFuel st pool
      else RunResult.success st pool
  | fuel + 1, st, pool =>
      if fees_per_byte st < target then
        if delta_fee target st < 1 then RunResult.success st pool
        else if st.change - delta_fee target st > dust then
          bumpRun target dust fuel (shrinkChange st (delta_fee target st)) pool
        else
          match pool.getLast? with
          | none => RunResult.insufficientFunds st
          | some c => bumpRun target dust fuel (addInput st c) pool.dropLast
      else RunResult.success st pool

/-- First half of a doublespend.py loop iteration (lines 117-121 and
182-186): shrink the change output iff that leaves it above the dust
threshold.  Unlike bump-fee.py this is not the `else` of the
input-add step. -/
def dsStep1 (target : ℚ) (dust : ℤ) (st : TxState) : TxState :=
  if st.change - delta_fee target st > dust then
    shrinkChange st (delta_fee target st)
  else st

/-- Convergence loops of doublespend.py (lines 110-144 for fee1 and
175-209 for fee2; both have the same structure), run for at most
`fuel` iterations.  Per iteration: optionally shrink the change
(`dsStep1`), then add an input only when `value_in - value_out < 0` —
with an unguarded `unspent[-1]` pop that raises `IndexError` on an
empty pool.  There is no `delta_fee < 1` break in these loops, and an
iteration with a non-shrinkable change and nonnegative fee mutates
nothing. -/
def dsRun (target : ℚ) (dust : ℤ) : ℕ → TxState → List Candidate → RunResult
  | 0, st, pool =>
      if fees_per_byte st < target then RunResult.outOfFuel st pool
      else RunResult.success st pool
  | fuel + 1, st, pool =>
      if fees_per_byte st < target then
        if (dsStep1 target dust st).value_in - (dsStep1 target dust st).value_out < 0 then
          match pool.getLast? with
          | none => RunResult.indexError (dsStep1 target dust st)
          | some c => dsRun target dust fuel (addInput (dsStep1 target dust st) c) pool.dropLast
        else dsRun target dust fuel (dsStep1 target dust st) pool
      else RunResult.success st pool

/-- Initial draft state built by doublespend.py lines 75-109 with the
optional extra outputs disabled: a zero-valued change output plus the
payment output, `value_in = 0`, and `value_out` the sum of the two
outputs. -/
def dsInitialState (payment : ℤ) (size : ℕ) : TxState :=
  { change := 0, value_in := 0, value_out := 0 + payment, size := size }

/-- Final step of bump-fee.py (lines 163-174): the transaction is
re-signed and broadcast only after a normal loop exit; on the
`insufficientFunds` path (`parser.exit`) the process stops and nothing
is broadcast. -/
def bumpBroadcast : RunResult → Option TxState
  | .success st _ => some st
  | _ => none

/-- Fee bookkeeping for the replacement transaction in sendmany.py:
`change` is `tx2.vout[0].nValue` (the change output, moved to slot 0)
and `fee` is the running `tx2_fee`. -/
structure Tx2Fees where
  change : ℤ
  fee : ℤ
deriving DecidableEq, Repr

/-- Python `int()` conversion applied to an exact rational: truncation
toward zero. -/
def pyTruncInt (q : ℚ) : ℤ :=
  if 0 ≤ q then ⌊q⌋ else ⌈q⌉

/-- First corrective pass of sendmany.py (lines 134-136): if the prior
transaction's absolute fee exceeds the replacement's, reduce the
change output by the difference and raise `tx2_fee` to `tx1_fee`. -/
def feeEqualize (tx1_fee : ℤ) (t : Tx2Fees) : Tx2Fees :=
  if tx1_fee > t.fee then
    { change := t.change - (tx1_fee - t.fee), fee := tx1_fee }
  else t

/-- Second corrective pass of sendmany.py (lines 138-141): if the
prior transaction's fee rate exceeds the replacement's, reduce the
change output by `d = int(tx1_fee * (tx2_size / tx1_size) - tx2_fee)`
and add `d` to `tx2_fee`. -/
def rateEqualize (tx1_fee : ℤ) (tx1_size tx2_size : ℕ) (t : Tx2Fees) : Tx2Fees :=
  if (tx1_fee : ℚ) / (tx1_size : ℚ) > (t.fee : ℚ) / (tx2_size : ℚ) then
    { change := t.change - pyTruncInt ((tx1_fee : ℚ) * ((tx2_size : ℚ) / (tx1_size : ℚ)) - (t.fee : ℚ))
      fee := t.fee + pyTruncInt ((tx1_fee : ℚ) * ((tx2_size : ℚ) / (tx1_size : ℚ)) - (t.fee : ℚ)) }
  else t

/-- The two corrective passes of sendmany.py in source order: absolute
fee equalization first, fee-rate equalization second. -/
def equalizePasses (tx1_fee : ℤ) (tx1_size tx2_size : ℕ) (t : Tx2Fees) : Tx2Fees :=
  rateEqualize tx1_fee tx1_size tx2_size (feeEqualize tx1_fee t)

/-- Transaction input as far as sendmany.py inspects it: an abstract
previous-output reference, an abstract scriptSig, and the nSequence
number. -/
structure MTxIn where
  prevout : ℕ
  scriptSig : ℕ
  nSequence : ℕ
deriving DecidableEq, Repr

/-- Transaction output as far as sendmany.py inspects it: a value and
an abstract scriptPubKey. -/
structure MTxOut where
  nValue : ℤ
  scriptPubKey : ℕ
deriving DecidableEq, Repr

/-- Mutable transaction for the sendmany.py pipeline. -/
structure MTx where
  vin : List MTxIn
  vout : List MTxOut
deriving DecidableEq, Repr

/-- sendmany.py line 70: `tx2.vin = tx2.vin[0:1]`. -/
def truncateVin (tx : MTx) : MTx :=
  { tx with vin := tx.vin.take 1 }

/-- sendmany.py lines 72-91: unless first-seen-safe rules are
requested, drop the first output when its scriptPubKey parses to an
address (`addrOf`), the wallet owns it (`isMine`), and it is not the
only output. -/
def dropChangeOutput (fss : Bool) (addrOf : ℕ → Option ℕ) (isMine : ℕ → Bool) (tx2 : MTx) : MTx :=
  match tx2.vout with
  | [] => tx2
  | v0 :: rest =>
      if fss then tx2
      else
        match addrOf v0.scriptPubKey with
        | none => tx2
        | some a => if rest.length > 0 ∧ isMine a then { tx2 with vout := rest } else tx2

/-- sendmany.py lines 94-97: append the new payment output. -/
def appendPayment (payment : MTxOut) (tx2 : MTx) : MTx :=
  { tx2 with vout := tx2.vout ++ [payment] }

/-- sendmany.py lines 103-105: `for txin in tx2.vin: txin.nSequence = 0`. -/
def zeroSequences (tx2 : MTx) : MTx :=
  { tx2 with vin := tx2.vin.map (fun txin => { txin with nSequence := 0 }) }

/-- sendmany.py lines 107-110: when `fundrawtransaction` reported a
change position, move that output to slot 0
(`tx2.vout[changepos:changepos+1] + tx2.vout[0:changepos] + tx2.vout[changepos+1:]`). -/
def moveChangeFirst (changepos : ℤ) (tx2 : MTx) : MTx :=
  if 0 ≤ changepos then
    { tx2 with
      vout := (tx2.vout.drop changepos.toNat).take 1 ++ tx2.vout.take changepos.toNat
        ++ tx2.vout.drop (changepos.toNat + 1) }
  else tx2

/-- Replacement transaction handed to `fundrawtransaction` by
sendmany.py lines 65-97: copy of the prior transaction (or empty),
inputs truncated to the first, change output possibly dropped, new
payment output appended. -/
def sendmanyBase (tx1 : Option MTx) (fss : Bool) (addrOf : ℕ → Option ℕ) (isMine : ℕ → Bool)
    (payment : MTxOut) : MTx :=
  appendPayment payment (dropChangeOutput fss addrOf isMine (truncateVin (tx1.getD ⟨[], []⟩)))

/-- sendmany.py pipeline from line 65 up to line 110 — the state of
`tx2` after funding and just before the first `signrawtransaction`.
The external `fundrawtransaction` collaborator is the parameter
`fund`, returning the funded transaction, its fee, and the change
position. -/
def sendmanyPrepare (tx1 : Option MTx) (fss : Bool) (addrOf : ℕ → Option ℕ) (isMine : ℕ → Bool)
    (payment : MTxOut) (fund : MTx → MTx × ℤ × ℤ) : MTx × ℤ × ℤ :=
  (moveChangeFirst (fund (sendmanyBase tx1 fss addrOf isMine payment)).2.2
      (zeroSequences (fund (sendmanyBase tx1 fss addrOf isMine payment)).1),
    (fund (sendmanyBase tx1 fss addrOf isMine payment)).2.1,
    (fund (sendmanyBase tx1 fss addrOf isMine payment)).2.2)

/-- Outcome of one `sendrawtransaction` call in the burn-scanner:
either the node accepts and returns a txid, or it rejects with a
`bitcoin.rpc.JSONRPCException` carrying an error. -/
inductive SendOutcome where
  | accepted (txid : ℕ)
  | rejected (err : ℕ)
deriving DecidableEq, Repr

/-- Log line produced for one burn candidate by
spend-brainwallets-to-fees.py lines 149-154. -/
inductive BurnLogEntry where
  | sentBurnTx (txid : ℕ)
  | gotError (err : ℕ)
deriving DecidableEq, Repr

/-- Per-cycle broadcast loop of spend-brainwallets-to-fees.py lines
149-154: each candidate burn transaction is broadcast inside its own
`try`; a `JSONRPCException` is logged and the `for` loop continues
with the next candidate.  Transactions are abstracted to identifiers
and the node's behaviour is the parameter `send`. -/
def broadcastBurnTxs (send : ℕ → SendOutcome) : List ℕ → List BurnLogEntry
  | [] => []
  | t :: rest =>
      (match send t with
       | SendOutcome.accepted txid => BurnLogEntry.sentBurnTx txid
       | SendOutcome.rejected e => BurnLogEntry.gotError e) :: broadcastBurnTxs send rest

/-- A run whose state already meets the target exits at once,
whatever the fuel. -/
theorem bumpRun_of_not_lt (target : ℚ) (dust : ℤ) (fuel : ℕ) (st : TxState)
    (pool : List Candidate) (h : ¬ fees_per_byte st < target) :
    bumpRun target dust fuel st pool = RunResult.success st pool := by
  cases fuel <;> simp [bumpRun, h]

/-- Shrinking the change by the computed `delta_fee` raises the fee
rate to at least the target (the serialized size is unchanged, and the
fee grows by at least the shortfall). -/
theorem fees_per_byte_shrink (target : ℚ) (st : TxState) (hsize : 0 < st.size) :
    target ≤ fees_per_byte (shrinkChange st (delta_fee target st)) := by
  have hq : (0 : ℚ) < (st.size : ℚ) := by exact_mod_cast hsize
  have hceil : target * (st.size : ℚ) - ((st.value_in - st.value_out : ℤ) : ℚ)
      ≤ ((delta_fee target st : ℤ) : ℚ) := Int.le_ceil _
  simp only [fees_per_byte, shrinkChange]
  rw [le_div_iff₀ hq]
  push_cast at hceil ⊢
  linarith

/-- While the loop guard holds and the size is positive, the computed
`delta_fee` is at least 1, so the `delta_fee < 1` break of bump-fee.py
line 115 is never taken under exact rational arithmetic. -/
theorem one_le_delta_fee (target : ℚ) (st : TxState) (hsize : 0 < st.size)
    (h : fees_per_byte st < target) : 1 ≤ delta_fee target st := by
  have hq : (0 : ℚ) < (st.size : ℚ) := by exact_mod_cast hsize
  rw [fees_per_byte, div_lt_iff₀ hq] at h
  have hpos : (0 : ℚ) < target * (st.size : ℚ) - ((st.value_in - st.value_out : ℤ) : ℚ) := by
    linarith
  have := Int.ceil_pos.mpr hpos
  rw [delta_fee]
  omega

/-- If the computed `delta_fee` is below 1 the fee rate already meets
the target. -/
theorem le_fees_of_delta_lt_one (target : ℚ) (st : TxState) (hsize : 0 < st.size)
    (h : delta_fee target st < 1) : target ≤ fees_per_byte st := by
  have hq : (0 : ℚ) < (st.size : ℚ) := by exact_mod_cast hsize
  have h0 : delta_fee target st ≤ 0 := by omega
  rw [delta_fee, Int.ceil_le] at h0
  push_cast at h0
  rw [fees_per_byte, le_div_iff₀ hq]
  push_cast
  linarith

/-- Run classification for the bump-fee.py loop: with fuel exceeding
the pool size, a run ends in a normal exit or in the guarded
`insufficientFunds` exit — never out of fuel, because every iteration
either pops one pool candidate or shrinks the change, after which the
very next guard check exits the loop. -/
theorem bumpRun_success_or_funds (target : ℚ) (dust : ℤ) :
    ∀ (fuel : ℕ) (pool : List Candidate) (st : TxState), 0 < st.size → pool.length < fuel →
      (bumpRun target dust fuel st pool).isSuccess = true ∨
      (bumpRun target dust fuel st pool).isInsufficientFunds = true := by
  intro fuel
  induction fuel with
  | zero => intro pool st _ hlen; exact absurd hlen (Nat.not_lt_zero _)
  | succ fuel ih =>
    intro pool st hsize hlen
    by_cases hg : fees_per_byte st < target
    · by_cases hd : delta_fee target st < 1
      · left; simp [bumpRun, hg, hd, RunResult.isSuccess]
      · by_cases hs : st.change - delta_fee target st > dust
        · have hnext : ¬ fees_per_byte (shrinkChange st (delta_fee target st)) < target :=
            not_lt.mpr (fees_per_byte_shrink target st hsize)
          left
          simp [bumpRun, hg, hd, hs, bumpRun_of_not_lt _ _ _ _ _ hnext, RunResult.isSuccess]
        · cases hpool : pool.getLast? with
          | none =>
            right
            simp [bumpRun, hg, hd, hs, hpool, RunResult.isInsufficientFunds]
          | some c =>
            have hne : pool ≠ [] := by
              intro hnil
              rw [hnil] at hpool
              simp at hpool
            have hlen2 : pool.dropLast.length < fuel := by
              have : 0 < pool.length := List.length_pos.mpr hne
              simp only [List.length_dropLast]
              omega
            have hsize2 : 0 < (addInput st c).size := by
              simp only [addInput]
              omega
            have := ih pool.dropLast (addInput st c) hsize2 hlen2
            simpa [bumpRun, hg, hd, hs, hpool] using this
    · left; simp [bumpRun_of_not_lt _ _ _ _ _ hg, RunResult.isSuccess]

/-- On any normal exit of the bump-fee.py loop the final fee rate
meets the target: the guard-false exit does so by definition, and the
`delta_fee < 1` break does so because the shortfall being below one
satoshi means the target is already met. -/
theorem bumpRun_success_rate (target : ℚ) (dust : ℤ) :
    ∀ (fuel : ℕ) (pool : List Candidate) (st : TxState), 0 < st.size →
      (bumpRun target dust fuel st pool).isSuccess = true →
      target ≤ fees_per_byte ((bumpRun target dust fuel st pool).state) := by
  intro fuel
  induction fuel with
  | zero =>
    intro pool st hsize hsucc
    by_cases hg : fees_per_byte st < target
    · simp [bumpRun, hg, RunResult.isSuccess] at hsucc
    · simp [bumpRun, hg, RunResult.state]
      exact not_lt.mp hg
  | succ fuel ih =>
    intro pool st hsize hsucc
    by_cases hg : fees_per_byte st < target
    · by_cases hd : delta_fee target st < 1
      · simp only [bumpRun, if_pos hg, if_pos hd, RunResult.state]
        exact le_fees_of_delta_lt_one target st hsize hd
      · by_cases hs : st.change - delta_fee target st > dust
        · simp only [bumpRun, if_pos hg, if_neg hd, if_pos hs] at hsucc ⊢
          exact ih pool (shrinkChange st (delta_fee target st)) hsize hsucc
        · cases hpool : pool.getLast? with
          | none => simp [bumpRun, hg, hd, hs, hpool, RunResult.isSuccess] at hsucc
          | some c =>
            have hsize2 : 0 < (addInput st c).size := by
              simp only [addInput]
              omega
            simp only [bumpRun, if_pos hg, if_neg hd, if_neg hs, hpool] at hsucc ⊢
            exact ih pool.dropLast (addInput st c) hsize2 hsucc
    · rw [bumpRun_of_not_lt _ _ _ _ _ hg]
      simp only [RunResult.state]
      exact not_lt.mp hg

/-- Claim C1: for every draft transaction whose current fee rate is
below the target and every unspent pool large enough to reach the
target (expressed as: the run does not end in the guarded
`InsufficientFunds` exit), the fee-rate convergence loop of
bump-fee.py terminates — `pool.length + 1` iterations always
suffice — with final fee rate `(value_in - value_out) / size` at
least the target; it exits only when this condition holds or when
`delta_fee` has fallen below 1, and under exact rational arithmetic
the `delta_fee < 1` exit also implies the condition. -/
theorem claim_C1 (target : ℚ) (dust : ℤ) (st : TxState) (pool : List Candidate)
    (hsize : 0 < st.size) (hbelow : fees_per_byte st < target)
    (hfunds : (bumpRun target dust (pool.length + 1) st pool).isInsufficientFunds = false) :
    (bumpRun target dust (pool.length + 1) st pool).isSuccess = true ∧
    target ≤ fees_per_byte ((bumpRun target dust (pool.length + 1) st pool).state) := by
  have hcls := bumpRun_success_or_funds target dust (pool.length + 1) pool st hsize
    (Nat.lt_succ_self _)
  have hsucc : (bumpRun target dust (pool.length + 1) st pool).isSuccess = true := by
    rcases hcls with h | h
    · exact h
    · rw [h] at hfunds; cases hfunds
  exact ⟨hsucc, bumpRun_success_rate target dust (pool.length + 1) pool st hsize hsucc⟩

/-- Witness for C1, instantiated at the transaction of spec section 8:
input value 100,000, output value 99,000, size 250 bytes (rate
4/byte), change output 99,000, target 40/byte, dust 10,000, one
candidate of 50,000 available. -/
theorem claim_C1_witness :
    0 < (⟨99000, 100000, 99000, 250⟩ : TxState).size ∧
    fees_per_byte ⟨99000, 100000, 99000, 250⟩ < 40 ∧
    (bumpRun 40 10000 (([⟨50000, 107⟩] : List Candidate).length + 1)
      ⟨99000, 100000, 99000, 250⟩ [⟨50000, 107⟩]).isInsufficientFunds = false ∧
    ((bumpRun 40 10000 (([⟨50000, 107⟩] : List Candidate).length + 1)
        ⟨99000, 100000, 99000, 250⟩ [⟨50000, 107⟩]).isSuccess = true ∧
      40 ≤ fees_per_byte ((bumpRun 40 10000 (([⟨50000, 107⟩] : List Candidate).length + 1)
        ⟨99000, 100000, 99000, 250⟩ [⟨50000, 107⟩]).state)) :=
  ⟨by decide,
   by norm_num [fees_per_byte],
   by norm_num [bumpRun, fees_per_byte, delta_fee, shrinkChange, RunResult.isInsufficientFunds],
   claim_C1 40 10000 ⟨99000, 100000, 99000, 250⟩ [⟨50000, 107⟩] (by decide)
     (by norm_num [fees_per_byte])
     (by norm_num [bumpRun, fees_per_byte, delta_fee, shrinkChange,
       RunResult.isInsufficientFunds])⟩

/-- Counterexample to claim C2 on the doublespend.py loops: an
iteration at change 5,000, dust 10,000 and required `delta_fee` 100
(so change − delta_fee = 4,900 ≤ dust) consumes NO new input — the
input-add there is guarded by `value_in - value_out < 0` (false here,
the fee is 0), not by the failed shrink — leaving state and pool
untouched, contradicting "otherwise it ... instead consumes one new
input from the pool". -/
theorem counterexample_C2 :
    (⟨5000, 5000, 5000, 100⟩ : TxState).change - delta_fee 1 ⟨5000, 5000, 5000, 100⟩ ≤ 10000 ∧
    dsRun 1 10000 1 ⟨5000, 5000, 5000, 100⟩ [⟨100000, 107⟩] =
      RunResult.outOfFuel ⟨5000, 5000, 5000, 100⟩ [⟨100000, 107⟩] := by
  constructor
  · norm_num [delta_fee]
  · norm_num [dsRun, dsStep1, fees_per_byte, delta_fee, shrinkChange]

/-- Claim C2 as amended: the stated dichotomy holds for the bump-fee.py
loop, whose branches are a genuine if/else — when
`change − delta_fee > dust` the iteration shrinks the change by
exactly `delta_fee` and touches no input, and otherwise it pops
exactly the largest pool candidate (the doublespend.py loops instead
guard the input-add by `value_in − value_out < 0`). -/
theorem claim_C2_amended_theorem (target : ℚ) (dust : ℤ) (fuel : ℕ) (st : TxState)
    (pool : List Candidate) (c : Candidate)
    (hguard : fees_per_byte st < target) (hd : 1 ≤ delta_fee target st) :
    (st.change - delta_fee target st > dust →
      bumpRun target dust (fuel + 1) st pool =
        bumpRun target dust fuel (shrinkChange st (delta_fee target st)) pool) ∧
    (st.change - delta_fee target st ≤ dust →
      bumpRun target dust (fuel + 1) st (pool ++ [c]) =
        bumpRun target dust fuel (addInput st c) pool) ∧
    (shrinkChange st (delta_fee target st)).change = st.change - delta_fee target st := by
  refine ⟨fun hs => ?_, fun hs => ?_, rfl⟩
  · simp [bumpRun, hguard, not_lt.mpr hd, hs]
  · simp [bumpRun, hguard, not_lt.mpr hd, not_lt.mpr hs, List.getLast?_concat,
      List.dropLast_concat]

/-- Witness for the amended C2 at the exact scenario of the claim:
change 10,050, dust 10,000, required `delta_fee` = 100, so
10,050 − 100 = 9,950 ≤ 10,000 and the bump-fee.py iteration adds the
pool input rather than shrinking the change. -/
theorem claim_C2_witness :
    fees_per_byte ⟨10050, 5000, 5000, 100⟩ < 1 ∧
    1 ≤ delta_fee 1 ⟨10050, 5000, 5000, 100⟩ ∧
    (⟨10050, 5000, 5000, 100⟩ : TxState).change - delta_fee 1 ⟨10050, 5000, 5000, 100⟩ ≤ 10000 ∧
    bumpRun 1 10000 (0 + 1) ⟨10050, 5000, 5000, 100⟩ ([] ++ [⟨30000, 107⟩]) =
      bumpRun 1 10000 0 (addInput ⟨10050, 5000, 5000, 100⟩ ⟨30000, 107⟩) [] :=
  ⟨by norm_num [fees_per_byte],
   by norm_num [delta_fee],
   by norm_num [delta_fee],
   ((claim_C2_amended_theorem 1 10000 0 ⟨10050, 5000, 5000, 100⟩ [] ⟨30000, 107⟩
      (by norm_num [fees_per_byte]) (by norm_num [delta_fee])).2.1
     (by norm_num [delta_fee]))⟩

/-- Counterexample to claim C3 on the doublespend.py fee2-style loop:
with a pool of size n = 1 and fuel n + 1 = 2 the loop is still
running — an iteration whose change cannot be shrunk and whose fee is
already nonnegative neither reduces the change nor pops a candidate,
so the loop does not terminate within `pool_size + 1` iterations (in
fact it never terminates from this state). -/
theorem counterexample_C3 :
    dsRun ((1 : ℚ)/2) 10000 (([⟨50000, 107⟩] : List Candidate).length + 1)
        ⟨4000, 4000, 4000, 200⟩ [⟨50000, 107⟩] =
      RunResult.outOfFuel ⟨4000, 4000, 4000, 200⟩ [⟨50000, 107⟩] := by
  norm_num [dsRun, dsStep1, fees_per_byte, delta_fee, shrinkChange]

/-- Claim C3 as amended: the `pool_size + 1` iteration bound holds for
the bump-fee.py convergence loop — any fuel of at least
`pool.length + 1` iterations is never exhausted, since each iteration
either pops one candidate or shrinks the change, after which the next
guard check exits. The doublespend.py loops do not satisfy the bound
(their iterations can mutate nothing). -/
theorem claim_C3_amended_theorem (target : ℚ) (dust : ℤ) (fuel : ℕ) (st : TxState)
    (pool : List Candidate) (hsize : 0 < st.size) (hfuel : pool.length + 1 ≤ fuel) :
    (bumpRun target dust fuel st pool).isOutOfFuel = false := by
  have hcls := bumpRun_success_or_funds target dust fuel pool st hsize (by omega)
  rcases hcls with h | h <;>
    cases hr : bumpRun target dust fuel st pool <;>
      simp_all [RunResult.isSuccess, RunResult.isInsufficientFunds, RunResult.isOutOfFuel]

/-- Witness for the amended C3 at a concrete run: pool of size 1, fuel
2, starting from the spec section 8 transaction. -/
theorem claim_C3_witness :
    0 < (⟨99000, 100000, 99000, 250⟩ : TxState).size ∧
    (([⟨50000, 107⟩] : List Candidate).length + 1 ≤ 2) ∧
    (bumpRun 40 10000 2 ⟨99000, 100000, 99000, 250⟩ [⟨50000, 107⟩]).isOutOfFuel = false :=
  ⟨by decide, by decide,
   claim_C3_amended_theorem 40 10000 2 ⟨99000, 100000, 99000, 250⟩ [⟨50000, 107⟩]
     (by decide) (by decide)⟩

/-- Counterexample to claim C4 on doublespend.py: when its loop needs
a new input (fee negative, change not shrinkable) and the pool is
empty, the unguarded `unspent[-1]` of lines 125/190 raises an
uncaught `IndexError` — the run does NOT end in the clean
`InsufficientFunds` report with a descriptive message that bump-fee.py
produces. -/
theorem counterexample_C4 :
    dsRun 1 10000 1 ⟨0, 0, 100000, 300⟩ [] = RunResult.indexError ⟨0, 0, 100000, 300⟩ ∧
    (dsRun 1 10000 1 ⟨0, 0, 100000, 300⟩ []).isInsufficientFunds = false := by
  constructor
  · norm_num [dsRun, dsStep1, fees_per_byte, delta_fee, shrinkChange]
  · norm_num [dsRun, dsStep1, fees_per_byte, delta_fee, shrinkChange,
      RunResult.isInsufficientFunds]

/-- Claim C4 as amended: in bump-fee.py, whenever the loop needs a new
input while the unspent pool is empty, the run ends in the guarded
`InsufficientFunds` exit (`parser.exit` with a descriptive message,
terminating the process with non-zero status), and the partially-built
transaction is never broadcast; in doublespend.py the same situation
raises an uncaught IndexError, which also aborts before any broadcast
but without the clean report. -/
theorem claim_C4_amended_theorem (target : ℚ) (dust : ℤ) (fuel : ℕ) (st : TxState)
    (hguard : fees_per_byte st < target) (hd : 1 ≤ delta_fee target st)
    (hshrink : st.change - delta_fee target st ≤ dust) :
    bumpRun target dust (fuel + 1) st [] = RunResult.insufficientFunds st ∧
    bumpBroadcast (bumpRun target dust (fuel + 1) st []) = none := by
  have h : bumpRun target dust (fuel + 1) st [] = RunResult.insufficientFunds st := by
    simp [bumpRun, hguard, not_lt.mpr hd, not_lt.mpr hshrink]
  exact ⟨h, by rw [h]; rfl⟩

/-- Witness for the amended C4: a draft 300 bytes short of 100,300
satoshis of fee, an unshrinkable zero change, and an empty pool. -/
theorem claim_C4_witness :
    fees_per_byte ⟨0, 0, 100000, 300⟩ < 1 ∧
    1 ≤ delta_fee 1 ⟨0, 0, 100000, 300⟩ ∧
    (⟨0, 0, 100000, 300⟩ : TxState).change - delta_fee 1 ⟨0, 0, 100000, 300⟩ ≤ 10000 ∧
    (bumpRun 1 10000 (0 + 1) ⟨0, 0, 100000, 300⟩ [] =
        RunResult.insufficientFunds ⟨0, 0, 100000, 300⟩ ∧
      bumpBroadcast (bumpRun 1 10000 (0 + 1) ⟨0, 0, 100000, 300⟩ []) = none) :=
  ⟨by norm_num [fees_per_byte],
   by norm_num [delta_fee],
   by norm_num [delta_fee],
   claim_C4_amended_theorem 1 10000 0 ⟨0, 0, 100000, 300⟩
     (by norm_num [fees_per_byte]) (by norm_num [delta_fee]) (by norm_num [delta_fee])⟩

/-- Counterexample to claim C5: starting the bump-fee.py loop from a
fresh zero-valued change output (the case of lines 77-83), one
input-add of a 5,000-satoshi candidate reaches a state whose change
output amount 5,000 lies strictly between 0 and the dust threshold
10,000 — the state exposed after one iteration (fuel 1). -/
theorem counterexample_C5 :
    (bumpRun 2 10000 1 ⟨0, 100000, 100000, 200⟩ [⟨5000, 107⟩]).state =
      (⟨5000, 105000, 105000, 307⟩ : TxState) ∧
    0 < ((bumpRun 2 10000 1 ⟨0, 100000, 100000, 200⟩ [⟨5000, 107⟩]).state).change ∧
    ((bumpRun 2 10000 1 ⟨0, 100000, 100000, 200⟩ [⟨5000, 107⟩]).state).change < 10000 := by
  have h : (bumpRun 2 10000 1 ⟨0, 100000, 100000, 200⟩ [⟨5000, 107⟩]).state =
      (⟨5000, 105000, 105000, 307⟩ : TxState) := by
    norm_num [bumpRun, fees_per_byte, delta_fee, shrinkChange, addInput, RunResult.state]
  refine ⟨h, ?_, ?_⟩ <;> rw [h] <;> decide

/-- Claim C5 as amended: a shrink is applied only when the resulting
change strictly exceeds the dust threshold, and an input-add never
decreases the change; hence whenever the change starts above the dust
threshold (and the pool amounts are nonnegative) every state the
bump-fee.py loop reaches — at any fuel, including every final state —
has change above dust and in particular never strictly between 0 and
dust. A change that starts at 0 or below dust can still pass through
that band, as the counterexample shows. -/
theorem claim_C5_amended_theorem (target : ℚ) (dust : ℤ) (fuel : ℕ) (st : TxState)
    (pool : List Candidate) (hchange : dust < st.change)
    (hpool : pool.all (fun c => decide (0 ≤ c.amount)) = true) :
    dust < ((bumpRun target dust fuel st pool).state).change ∧
    ¬ (0 < ((bumpRun target dust fuel st pool).state).change ∧
        ((bumpRun target dust fuel st pool).state).change < dust) := by
  have main : ∀ (f : ℕ) (p : List Candidate) (s : TxState), dust < s.change →
      (∀ c ∈ p, 0 ≤ c.amount) → dust < ((bumpRun target dust f s p).state).change := by
    intro f
    induction f with
    | zero =>
      intro p s hc _
      by_cases hg : fees_per_byte s < target <;> simp [bumpRun, hg, RunResult.state, hc]
    | succ f ih =>
      intro p s hc hp
      by_cases hg : fees_per_byte s < target
      · by_cases hd : delta_fee target s < 1
        · simpa [bumpRun, hg, hd, RunResult.state] using hc
        · by_cases hs : s.change - delta_fee target s > dust
          · have hc2 : dust < (shrinkChange s (delta_fee target s)).change := hs
            simp only [bumpRun, if_pos hg, if_neg hd, if_pos hs]
            exact ih p _ hc2 hp
          · cases hpl : p.getLast? with
            | none => simpa [bumpRun, hg, hd, hs, hpl, RunResult.state] using hc
            | some c =>
              have hcmem : c ∈ p := List.mem_of_getLast?_eq_some hpl
              have hc2 : dust < (addInput s c).change := by
                have := hp c hcmem
                simp only [addInput]
                omega
              have hp2 : ∀ x ∈ p.dropLast, 0 ≤ x.amount := fun x hx =>
                hp x (List.mem_of_mem_dropLast hx)
              simp only [bumpRun, if_pos hg, if_neg hd, if_neg hs, hpl]
              exact ih p.dropLast _ hc2 hp2
      · simpa [bumpRun_of_not_lt _ _ _ _ _ hg, RunResult.state] using hc
  have hp : ∀ c ∈ pool, 0 ≤ c.amount := by
    intro c hcm
    have := List.all_eq_true.mp hpool c hcm
    exact of_decide_eq_true this
  have h1 := main fuel pool st hchange hp
  exact ⟨h1, fun hcon => absurd hcon.2 (not_lt.mpr (le_of_lt h1))⟩

/-- Witness for the amended C5: change 20,000 above dust 10,000, one
nonnegative candidate, two iterations of fuel. -/
theorem claim_C5_witness :
    (10000 : ℤ) < (⟨20000, 100000, 99000, 250⟩ : TxState).change ∧
    ([⟨50000, 107⟩] : List Candidate).all (fun c => decide (0 ≤ c.amount)) = true ∧
    (10000 < ((bumpRun 40 10000 2 ⟨20000, 100000, 99000, 250⟩ [⟨50000, 107⟩]).state).change ∧
      ¬ (0 < ((bumpRun 40 10000 2 ⟨20000, 100000, 99000, 250⟩ [⟨50000, 107⟩]).state).change ∧
          ((bumpRun 40 10000 2 ⟨20000, 100000, 99000, 250⟩ [⟨50000, 107⟩]).state).change
            < 10000)) :=
  ⟨by decide, by decide,
   claim_C5_amended_theorem 40 10000 2 ⟨20000, 100000, 99000, 250⟩ [⟨50000, 107⟩]
     (by decide) (by decide)⟩

/-- Counterexample to claim C6: the draft transaction doublespend.py
hands to its first convergence loop starts with `value_in = 0` and a
positive `value_out` (the payment output), so the sum of outputs
exceeds the sum of resolved inputs and the fee is negative at that
point of the mutation. -/
theorem counterexample_C6 :
    (dsInitialState 100000 250).value_in < (dsInitialState 100000 250).value_out ∧
    ¬ ((dsInitialState 100000 250).value_out ≤ (dsInitialState 100000 250).value_in) := by
  constructor <;> decide

/-- Claim C6 as amended: both mutation steps of the bump-fee.py loop
preserve `value_out ≤ value_in` — a shrink lowers `value_out` by the
positive `delta_fee` and an input-add leaves the difference
`value_in − value_out` unchanged — so the invariant holds at every
point of a run that starts with it (as bump-fee.py's drafts do, being
existing transactions with nonnegative fee); the doublespend.py draft
violates it at the start, with `value_in = 0` against a positive
`value_out`, until the first shrink establishes it. -/
theorem claim_C6_amended_theorem (target : ℚ) (dust : ℤ) (fuel : ℕ) (st : TxState)
    (pool : List Candidate) (d : ℤ) (c : Candidate)
    (h : st.value_out ≤ st.value_in) (hd : 0 ≤ d) :
    ((bumpRun target dust fuel st pool).state).value_out ≤
      ((bumpRun target dust fuel st pool).state).value_in ∧
    (shrinkChange st d).value_out ≤ (shrinkChange st d).value_in ∧
    (addInput st c).value_in - (addInput st c).value_out = st.value_in - st.value_out := by
  have main : ∀ (f : ℕ) (p : List Candidate) (s : TxState), s.value_out ≤ s.value_in →
      ((bumpRun target dust f s p).state).value_out ≤
        ((bumpRun target dust f s p).state).value_in := by
    intro f
    induction f with
    | zero =>
      intro p s hs
      by_cases hg : fees_per_byte s < target <;> simp [bumpRun, hg, RunResult.state, hs]
    | succ f ih =>
      intro p s hs
      by_cases hg : fees_per_byte s < target
      · by_cases hdf : delta_fee target s < 1
        · simpa [bumpRun, hg, hdf, RunResult.state] using hs
        · by_cases hsh : s.change - delta_fee target s > dust
          · have h2 : (shrinkChange s (delta_fee target s)).value_out ≤
                (shrinkChange s (delta_fee target s)).value_in := by
              simp only [shrinkChange]
              omega
            simp only [bumpRun, if_pos hg, if_neg hdf, if_pos hsh]
            exact ih p _ h2
          · cases hpl : p.getLast? with
            | none => simpa [bumpRun, hg, hdf, hsh, hpl, RunResult.state] using hs
            | some c2 =>
              have h2 : (addInput s c2).value_out ≤ (addInput s c2).value_in := by
                simp only [addInput]
                omega
              simp only [bumpRun, if_pos hg, if_neg hdf, if_neg hsh, hpl]
              exact ih p.dropLast _ h2
      · simpa [bumpRun_of_not_lt _ _ _ _ _ hg, RunResult.state] using hs
  refine ⟨main fuel pool st h, ?_, ?_⟩
  · simp only [shrinkChange]
    omega
  · simp only [addInput]
    ring

/-- Witness for the amended C6: the spec section 8 transaction (fee
1,000 ≥ 0), shrink amount 500, one candidate. -/
theorem claim_C6_witness :
    (⟨99000, 100000, 99000, 250⟩ : TxState).value_out ≤
      (⟨99000, 100000, 99000, 250⟩ : TxState).value_in ∧
    (0 : ℤ) ≤ 500 ∧
    (((bumpRun 40 10000 2 ⟨99000, 100000, 99000, 250⟩ [⟨50000, 107⟩]).state).value_out ≤
        ((bumpRun 40 10000 2 ⟨99000, 100000, 99000, 250⟩ [⟨50000, 107⟩]).state).value_in ∧
      (shrinkChange ⟨99000, 100000, 99000, 250⟩ 500).value_out ≤
        (shrinkChange ⟨99000, 100000, 99000, 250⟩ 500).value_in ∧
      (addInput ⟨99000, 100000, 99000, 250⟩ ⟨50000, 107⟩).value_in -
          (addInput ⟨99000, 100000, 99000, 250⟩ ⟨50000, 107⟩).value_out =
        (⟨99000, 100000, 99000, 250⟩ : TxState).value_in -
          (⟨99000, 100000, 99000, 250⟩ : TxState).value_out) :=
  ⟨by decide, by decide,
   claim_C6_amended_theorem 40 10000 2 ⟨99000, 100000, 99000, 250⟩ [⟨50000, 107⟩] 500
     ⟨50000, 107⟩ (by decide) (by decide)⟩

/-- Counterexample to claim C8: prior fee 1,001 over 500 bytes (rate
2.002/byte), funded replacement fee 900 over 600 bytes.  The first
pass raises the fee to 1,001; the second computes
`d = int(1001 * (600/500) - 1001) = 200`, giving final fee 1,201 —
and 1201/600 = 2.001666… is strictly BELOW the prior rate 2.002, so
after both passes the replacement does have a lower fee rate than tx1
(the `int()` truncation undershoots exact rate equalization). -/
theorem counterexample_C8 :
    ((equalizePasses 1001 500 600 ⟨500000, 900⟩).fee : ℚ) / 600 < (1001 : ℚ) / 500 := by
  norm_num [equalizePasses, feeEqualize, rateEqualize, pyTruncInt]

/-- Claim C8 as amended: the two corrective passes run in source
order — absolute-fee equalization first, only then the rate
comparison — and afterwards the replacement fee is at least the prior
fee and at least its own funded fee, while its fee rate falls short of
the prior rate by less than one satoshi per `tx2_size` bytes
(`tx2_fee * tx1_size > tx1_fee * tx2_size - tx1_size`, the slack the
`int()` truncation can lose); exact rate dominance does not hold in
general.  In the scenario with prior fee 1,000 the first pass raises a
funded fee of 900 to exactly 1,000 before the rate comparison. -/
theorem claim_C8_amended_theorem (tx1_fee : ℤ) (tx1_size tx2_size : ℕ) (t : Tx2Fees)
    (hs1 : 0 < tx1_size) (hs2 : 0 < tx2_size) :
    tx1_fee ≤ (equalizePasses tx1_fee tx1_size tx2_size t).fee ∧
    t.fee ≤ (equalizePasses tx1_fee tx1_size tx2_size t).fee ∧
    tx1_fee * (tx2_size : ℤ) - (tx1_size : ℤ) <
      (equalizePasses tx1_fee tx1_size tx2_size t).fee * (tx1_size : ℤ) ∧
    (feeEqualize 1000 ⟨390000, 900⟩).fee = 1000 := by
  have hq1 : (0 : ℚ) < (tx1_size : ℚ) := by exact_mod_cast hs1
  have hq2 : (0 : ℚ) < (tx2_size : ℚ) := by exact_mod_cast hs2
  have hscen : (feeEqualize 1000 ⟨390000, 900⟩).fee = 1000 := by norm_num [feeEqualize]
  have hu1 : tx1_fee ≤ (feeEqualize tx1_fee t).fee ∧ t.fee ≤ (feeEqualize tx1_fee t).fee := by
    rw [feeEqualize]
    by_cases h : tx1_fee > t.fee <;> simp [h] <;> omega
  rw [equalizePasses, rateEqualize]
  by_cases hcmp : ((tx1_fee : ℤ) : ℚ) / (tx1_size : ℚ) >
      (((feeEqualize tx1_fee t).fee : ℤ) : ℚ) / (tx2_size : ℚ)
  · have hlt : (((feeEqualize tx1_fee t).fee : ℤ) : ℚ) * (tx1_size : ℚ) <
        ((tx1_fee : ℤ) : ℚ) * (tx2_size : ℚ) := by
      rw [gt_iff_lt, div_lt_div_iff₀ hq2 hq1] at hcmp
      exact hcmp
    have hqpos : (0 : ℚ) < ((tx1_fee : ℤ) : ℚ) * ((tx2_size : ℚ) / (tx1_size : ℚ)) -
        (((feeEqualize tx1_fee t).fee : ℤ) : ℚ) := by
      rw [mul_div_assoc', sub_pos, lt_div_iff₀ hq1]
      exact hlt
    have hdfloor : pyTruncInt (((tx1_fee : ℤ) : ℚ) * ((tx2_size : ℚ) / (tx1_size : ℚ)) -
        (((feeEqualize tx1_fee t).fee : ℤ) : ℚ)) =
        ⌊((tx1_fee : ℤ) : ℚ) * ((tx2_size : ℚ) / (tx1_size : ℚ)) -
          (((feeEqualize tx1_fee t).fee : ℤ) : ℚ)⌋ := by
      rw [pyTruncInt, if_pos (le_of_lt hqpos)]
    have hdnn : 0 ≤ ⌊((tx1_fee : ℤ) : ℚ) * ((tx2_size : ℚ) / (tx1_size : ℚ)) -
        (((feeEqualize tx1_fee t).fee : ℤ) : ℚ)⌋ :=
      Int.le_floor.mpr (by exact_mod_cast le_of_lt hqpos)
    simp only [if_pos hcmp, hdfloor]
    refine ⟨by omega, by omega, ?_, hscen⟩
    have hfl : ((tx1_fee : ℤ) : ℚ) * ((tx2_size : ℚ) / (tx1_size : ℚ)) -
        (((feeEqualize tx1_fee t).fee : ℤ) : ℚ) - 1 <
        ((⌊((tx1_fee : ℤ) : ℚ) * ((tx2_size : ℚ) / (tx1_size : ℚ)) -
          (((feeEqualize tx1_fee t).fee : ℤ) : ℚ)⌋ : ℤ) : ℚ) :=
      Int.sub_one_lt_floor _
    have hrate : ((tx1_fee : ℤ) : ℚ) * (tx2_size : ℚ) - (tx1_size : ℚ) <
        ((((feeEqualize tx1_fee t).fee +
          ⌊((tx1_fee : ℤ) : ℚ) * ((tx2_size : ℚ) / (tx1_size : ℚ)) -
            (((feeEqualize tx1_fee t).fee : ℤ) : ℚ)⌋ : ℤ) : ℚ)) * (tx1_size : ℚ) := by
      have hstep : ((tx1_fee : ℤ) : ℚ) * ((tx2_size : ℚ) / (tx1_size : ℚ)) - 1 <
          (((feeEqualize tx1_fee t).fee : ℤ) : ℚ) +
            ((⌊((tx1_fee : ℤ) : ℚ) * ((tx2_size : ℚ) / (tx1_size : ℚ)) -
              (((feeEqualize tx1_fee t).fee : ℤ) : ℚ)⌋ : ℤ) : ℚ) := by
        linarith [hfl]
      have hid : (((tx1_fee : ℤ) : ℚ) * ((tx2_size : ℚ) / (tx1_size : ℚ)) - 1) * (tx1_size : ℚ)
          = ((tx1_fee : ℤ) : ℚ) * (tx2_size : ℚ) - (tx1_size : ℚ) := by
        rw [sub_mul, one_mul, mul_assoc, div_mul_cancel₀ _ (ne_of_gt hq1)]
      have hmul := mul_lt_mul_of_pos_right hstep hq1
      rw [hid] at hmul
      calc ((tx1_fee : ℤ) : ℚ) * (tx2_size : ℚ) - (tx1_size : ℚ)
          < ((((feeEqualize tx1_fee t).fee : ℤ) : ℚ) +
              ((⌊((tx1_fee : ℤ) : ℚ) * ((tx2_size : ℚ) / (tx1_size : ℚ)) -
                (((feeEqualize tx1_fee t).fee : ℤ) : ℚ)⌋ : ℤ) : ℚ)) * (tx1_size : ℚ) := hmul
        _ = ((((feeEqualize tx1_fee t).fee +
              ⌊((tx1_fee : ℤ) : ℚ) * ((tx2_size : ℚ) / (tx1_size : ℚ)) -
                (((feeEqualize tx1_fee t).fee : ℤ) : ℚ)⌋ : ℤ) : ℚ)) * (tx1_size : ℚ) := by
            push_cast
            ring
    exact_mod_cast hrate
  · have hge : ((tx1_fee : ℤ) : ℚ) * (tx2_size : ℚ) ≤
        (((feeEqualize tx1_fee t).fee : ℤ) : ℚ) * (tx1_size : ℚ) := by
      rw [gt_iff_lt, not_lt, div_le_div_iff₀ hq1 hq2] at hcmp
      exact hcmp
    simp only [if_neg hcmp]
    refine ⟨hu1.1, hu1.2, ?_, hscen⟩
    have : ((tx1_fee : ℤ) : ℚ) * (tx2_size : ℚ) - (tx1_size : ℚ) <
        (((feeEqualize tx1_fee t).fee : ℤ) : ℚ) * (tx1_size : ℚ) := by linarith
    exact_mod_cast this

/-- Witness for the amended C8 at the scenario of the claim: prior fee
1,000 over 500 bytes, funded replacement fee 900 over 400 bytes. -/
theorem claim_C8_witness :
    (0 : ℕ) < 500 ∧ (0 : ℕ) < 400 ∧
    ((1000 : ℤ) ≤ (equalizePasses 1000 500 400 ⟨390000, 900⟩).fee ∧
      (⟨390000, 900⟩ : Tx2Fees).fee ≤ (equalizePasses 1000 500 400 ⟨390000, 900⟩).fee ∧
      (1000 : ℤ) * (400 : ℕ) - (500 : ℕ) <
        (equalizePasses 1000 500 400 ⟨390000, 900⟩).fee * (500 : ℕ) ∧
      (feeEqualize 1000 ⟨390000, 900⟩).fee = 1000) :=
  ⟨by decide, by decide,
   claim_C8_amended_theorem 1000 500 400 ⟨390000, 900⟩ (by decide) (by decide)⟩

/-- Claim C9: in the burn-scanner's per-cycle broadcast loop, a
candidate rejected by the node contributes one logged error entry and
the loop processes all remaining candidates of the cycle exactly as it
would have — every candidate before and after the rejected one still
gets its own attempt, and the cycle's log has one entry per
candidate. -/
theorem claim_C9 (send : ℕ → SendOutcome) (pre post : List ℕ) (t e : ℕ)
    (hrej : send t = SendOutcome.rejected e) :
    broadcastBurnTxs send (pre ++ t :: post) =
      broadcastBurnTxs send pre ++ BurnLogEntry.gotError e :: broadcastBurnTxs send post ∧
    (broadcastBurnTxs send (pre ++ t :: post)).length = pre.length + 1 + post.length := by
  have hlen : ∀ l : List ℕ, (broadcastBurnTxs send l).length = l.length := by
    intro l
    induction l with
    | nil => rfl
    | cons a as ih => simp [broadcastBurnTxs, ih]
  have main : ∀ p : List ℕ, broadcastBurnTxs send (p ++ t :: post) =
      broadcastBurnTxs send p ++ BurnLogEntry.gotError e :: broadcastBurnTxs send post := by
    intro p
    induction p with
    | nil => simp [broadcastBurnTxs, hrej]
    | cons a as ih => simp [broadcastBurnTxs, ih]
  refine ⟨main pre, ?_⟩
  rw [main pre]
  simp [hlen]
  omega

/-- Witness for C9: candidates [1, 0, 2] where the node rejects
candidate 0 with error 7 and accepts the others. -/
theorem claim_C9_witness :
    (fun n => if n = 0 then SendOutcome.rejected 7 else SendOutcome.accepted n) 0 =
      SendOutcome.rejected 7 ∧
    (broadcastBurnTxs (fun n => if n = 0 then SendOutcome.rejected 7 else SendOutcome.accepted n)
        ([1] ++ 0 :: [2]) =
      broadcastBurnTxs (fun n => if n = 0 then SendOutcome.rejected 7 else SendOutcome.accepted n)
          [1] ++ BurnLogEntry.gotError 7 ::
        broadcastBurnTxs (fun n => if n = 0 then SendOutcome.rejected 7 else SendOutcome.accepted n)
          [2] ∧
      (broadcastBurnTxs (fun n => if n = 0 then SendOutcome.rejected 7 else SendOutcome.accepted n)
        ([1] ++ 0 :: [2])).length = [1].length + 1 + [2].length) :=
  ⟨by decide,
   claim_C9 (fun n => if n = 0 then SendOutcome.rejected 7 else SendOutcome.accepted n)
     [1] [2] 0 7 (by decide)⟩

/-- Claim C10: in the sendmany.py pipeline, after funding and before
signing every input of the replacement transaction has nSequence 0 —
whatever the first-seen-safe flag, the prior transaction's sequence
numbers, and the inputs the funder chose. -/
theorem claim_C10 (tx1 : Option MTx) (fss : Bool) (addrOf : ℕ → Option ℕ) (isMine : ℕ → Bool)
    (payment : MTxOut) (fund : MTx → MTx × ℤ × ℤ) :
    ∀ txin ∈ (sendmanyPrepare tx1 fss addrOf isMine payment fund).1.vin, txin.nSequence = 0 := by
  intro txin hmem
  have hvin : (sendmanyPrepare tx1 fss addrOf isMine payment fund).1.vin =
      ((fund (sendmanyBase tx1 fss addrOf isMine payment)).1).vin.map
        (fun x => { x with nSequence := 0 }) := by
    rw [sendmanyPrepare]
    by_cases h : 0 ≤ (fund (sendmanyBase tx1 fss addrOf isMine payment)).2.2 <;>
      simp [moveChangeFirst, zeroSequences, h]
  rw [hvin] at hmem
  obtain ⟨y, _, rfl⟩ := List.mem_map.mp hmem
  rfl

/-- Witness for C10: a prior transaction whose single input carries
nSequence 999, first-seen-safe on, and a funder that appends an input
with nSequence 777 and reports change position 0; both inputs of the
prepared replacement end with nSequence 0. -/
theorem claim_C10_witness :
    (⟨1, 2, 0⟩ : MTxIn) ∈ (sendmanyPrepare (some ⟨[⟨1, 2, 999⟩], [⟨5, 7⟩]⟩) true
        (fun _ => none) (fun _ => false) ⟨3, 9⟩
        (fun tx => (⟨tx.vin ++ [⟨4, 0, 777⟩], tx.vout⟩, 50, 0))).1.vin ∧
    (⟨1, 2, 0⟩ : MTxIn).nSequence = 0 :=
  ⟨by decide,
   claim_C10 (some ⟨[⟨1, 2, 999⟩], [⟨5, 7⟩]⟩) true (fun _ => none) (fun _ => false) ⟨3, 9⟩
     (fun tx => (⟨tx.vin ++ [⟨4, 0, 777⟩], tx.vout⟩, 50, 0)) ⟨1, 2, 0⟩ (by decide)⟩
